import Mathlib

/-!
# Verification of the `Queryset` core of transifex-api-python

A shallow embedding of `src/jsonapi/querysets.py`.  Python dictionaries are
modelled as insertion-ordered association lists with unique keys; in-place
mutation of a caller-supplied dictionary (as performed by `Queryset.__init__`
via `params.update(query_params)`) is modelled by returning the post-call
contents of that dictionary alongside the constructed object.  The two external
collaborators (`API.request` and `API.new`) are parameters; a failure of either
is an explicit `Except` error, mirroring a raised Python exception.
-/

set_option autoImplicit false

namespace TxJsonApi

/-- A query-parameter value: `parse_qs` output collapsed by `__init__`
(a single value becomes a scalar string, several stay a list). -/
inductive Val where
  | str (s : String)
  | list (l : List String)
  deriving DecidableEq, Repr

/-- A Python dict from parameter names to values, as an insertion-ordered
association list. -/
abbrev Params := List (String × Val)

/-- `d[k] = v` on a Python dict: replace the value at the first (unique)
occurrence of `k` in place, else append the new pair at the end. -/
def setAssoc {α : Type} : List (String × α) → String → α → List (String × α)
  | [], k, v => [(k, v)]
  | p :: rest, k, v => if p.1 = k then (k, v) :: rest else p :: setAssoc rest k v

/-- `d.get(k)` / `d[k]` lookup: first occurrence wins. -/
def getAssoc {α : Type} : List (String × α) → String → Option α
  | [], _ => none
  | p :: rest, k => if p.1 = k then some p.2 else getAssoc rest k

/-- Lookup where the *last* occurrence wins (what repeated `d[k] = v`
assignments leave behind when folding a possibly-duplicated pair list). -/
def lastAssoc {α : Type} : List (String × α) → String → Option α
  | [], _ => none
  | p :: rest, k =>
    match lastAssoc rest k with
    | some v => some v
    | none => if p.1 = k then some p.2 else none

/-- `d.update(e)` on Python dicts: assign every pair of `e` into `d` in order. -/
def updateP (d e : Params) : Params :=
  e.foldl (fun acc p => setAssoc acc p.1 p.2) d

/-- The result of `urllib.parse.urlparse`: a path plus the raw query-string
key/value pairs in order. -/
structure Url where
  path : String
  query : List (String × String)
  deriving DecidableEq, Repr

/-- The keys of a raw query string in order of first occurrence
(`urllib.parse.parse_qs` groups values per key this way). -/
def qsKeys (q : List (String × String)) : List String :=
  q.foldl (fun acc p => if acc.contains p.1 then acc else acc ++ [p.1]) []

/-- `parse_qs` followed by the collapse in `Queryset.__init__`:
`{key: value[0] if len(value) == 1 else value}`. -/
def parseQS (q : List (String × String)) : Params :=
  (qsKeys q).map (fun k =>
    (k, match (q.filter (fun p => p.1 = k)).map Prod.snd with
        | [v] => Val.str v
        | vs => Val.list vs))

/-- Truthiness of the URL string a cursor was parsed from:
`bool(url)` is false exactly for the empty string. -/
def urlTruthy (u : Url) : Bool :=
  !(u.path == "" && u.query.isEmpty)

/-- The `type`/`id` pair inside a relationship's `data` member. -/
structure RelPtr where
  type : String
  id : String
  deriving DecidableEq, Repr

/-- One value of the `relationships` mapping of a wire resource object:
JSON `null`, a dict without a `"data"` key, or a dict whose `"data"` member
is `null` or a `{type, id}` pointer. -/
inductive RelEntry where
  | null
  | noData
  | data (p : Option RelPtr)
  deriving DecidableEq, Repr

/-- The non-relationship part of a wire resource object: what
`self.API.new(relationships=..., **item)` receives besides `relationships`
once `relationships` has been popped. -/
structure ItemCore where
  type : String
  id : String
  attributes : List (String × String)
  deriving DecidableEq, Repr

/-- A raw resource object of the wire document (`data` or `included` element). -/
structure Item where
  type : String
  id : String
  attributes : List (String × String)
  relationships : List (String × RelEntry)
  deriving DecidableEq, Repr

def Item.core (it : Item) : ItemCore :=
  ⟨it.type, it.id, it.attributes⟩

/-- The `links` section of a wire document; an absent or `null` member is
`none`. -/
structure Links where
  next : Option Url
  previous : Option Url
  deriving DecidableEq, Repr

/-- A wire document `{data, included?, links?}`; an absent `included` is the
empty list and an absent `links` the all-`none` record, observably identical
through `dict.get`. -/
structure Document where
  data : List Item
  included : List Item
  links : Links
  deriving DecidableEq, Repr

/-- A constructed entity, as produced by the default entity constructor: its
core fields plus a relationships mapping whose entries are either still-raw
wire entries (`Sum.inl`) or resolved entities (`Sum.inr`). -/
inductive Entity where
  | mk (core : ItemCore) (rels : List (String × (RelEntry ⊕ Entity)))

def Entity.core : Entity → ItemCore
  | .mk c _ => c

def Entity.rels : Entity → List (String × (RelEntry ⊕ Entity))
  | .mk _ r => r

/-- The entity-constructor collaborator `API.new`: receives the non-relationship
fields and the relationships mapping, and may raise. -/
abbrev NewFn := ItemCore → List (String × (RelEntry ⊕ Entity)) → Except Unit Entity

/-- The entity constructor that simply records its arguments. -/
def defaultNew : NewFn := fun c r => Except.ok (Entity.mk c r)

/-- Errors surfacing from evaluation and the list-like accessors. -/
inductive PyErr where
  | transportError
  | typeError
  | newError
  | doesNotExist
  | multipleObjects (n : Nat)
  | valueError
  deriving DecidableEq, Repr

/-- The two collaborators behind a `Queryset`: the transport
(`request('get', url, params)`) and the entity constructor. -/
structure API where
  request : String → Params → Except Unit Document
  new : NewFn

/-- The state of a `Queryset` instance: `self._url`, `self._params`,
`self._data` (`none` = unevaluated), `self._next_url`, `self._previous_url`. -/
structure Queryset where
  url : String
  params : Params
  data : Option (List Entity)
  next_url : Option Url
  previous_url : Option Url

/-- `Queryset.__init__(API, url, params)`: split the URL, merge its parsed
query pairs into the caller's `params` dict **in place**
(`params.update(query_params)`), alias that dict as `self._params`.
The second component is the caller's dictionary after the call (the very
object the instance now holds). -/
def initQS (u : Url) (params : Params) : Queryset × Params :=
  let ps := updateP params (parseQS u.query)
  (⟨u.path, ps, none, none, none⟩, ps)

/-- `{(item['type'], item['id']): item for item in included}`: a dict
comprehension, so a later duplicate key overwrites an earlier one. -/
def includedLookup (doc : Document) (k : String × String) : Option Item :=
  doc.included.reverse.find? (fun it => it.type = k.1 && it.id = k.2)

/-- One iteration of the `related`-building loop inside `_evaluate`: skip a
`None` relationship or one without `'data'`, crash (`TypeError`) on a `null`
data pointer, construct and record the included entity on a side-table hit,
skip on a miss. -/
def resolveStep (nf : NewFn) (lk : String × String → Option Item)
    (acc : List (String × Entity)) (nm : String) (re : RelEntry) :
    Except PyErr (List (String × Entity)) :=
  match re with
  | .null => Except.ok acc
  | .noData => Except.ok acc
  | .data none => Except.error PyErr.typeError
  | .data (some ptr) =>
    match lk (ptr.type, ptr.id) with
    | some inc =>
      match nf inc.core (inc.relationships.map (fun p => (p.1, Sum.inl p.2))) with
      | Except.ok e => Except.ok (setAssoc acc nm e)
      | Except.error _ => Except.error PyErr.newError
    | none => Except.ok acc

/-- The full `related`-building loop over one item's relationships. -/
def buildRelated (nf : NewFn) (lk : String × String → Option Item)
    (rels : List (String × RelEntry)) : Except PyErr (List (String × Entity)) :=
  rels.foldlM (fun acc p => resolveStep nf lk acc p.1 p.2) []

/-- The body of the `for item in response_body['data']` loop: build `related`,
pop the raw relationships, overwrite them with the resolved ones
(`relationships.update(related)`), and call `API.new`. -/
def evalItem (nf : NewFn) (lk : String × String → Option Item) (item : Item) :
    Except PyErr Entity :=
  match buildRelated nf lk item.relationships with
  | Except.error e => Except.error e
  | Except.ok related =>
    let base := item.relationships.map (fun p => (p.1, Sum.inl p.2))
    let merged := related.foldl (fun a p => setAssoc a p.1 (Sum.inr p.2)) base
    match nf item.core merged with
    | Except.ok e => Except.ok e
    | Except.error _ => Except.error PyErr.newError

/-- The whole item loop.  Mirrors that `self._data = []` is assigned *before*
the loop and appended to per item: the first component is the list of entities
appended before any failure, the second the failure if one occurred. -/
def buildEntities (nf : NewFn) (lk : String × String → Option Item) :
    List Item → List Entity × Option PyErr
  | [] => ([], none)
  | it :: rest =>
    match evalItem nf lk it with
    | Except.error e => ([], some e)
    | Except.ok ent =>
      let r := buildEntities nf lk rest
      (ent :: r.1, r.2)

/-- `Queryset._evaluate()` without a pre-supplied body: a no-op when
`self._data is not None`; otherwise issue the request and build the cache.
Returns the instance state after the call, the exception that escaped (if
any), and the number of transport requests issued. -/
def evaluateWith (api : API) (q : Queryset) : Queryset × Option PyErr × Nat :=
  if q.data.isSome then (q, none, 0)
  else
    match api.request q.url q.params with
    | Except.error _ => (q, some PyErr.transportError, 1)
    | Except.ok doc =>
      let be := buildEntities api.new (includedLookup doc) doc.data
      match be.2 with
      | some e => ({ q with data := some be.1 }, some e, 1)
      | none =>
        ({ q with data := some be.1,
                  next_url := doc.links.next,
                  previous_url := doc.links.previous }, none, 1)

/-- Triggering evaluation `k` times in a row (as `k` successive list-like
accesses do), counting the transport requests issued in total. -/
def iterEval (api : API) : Nat → Queryset → Queryset × Nat
  | 0, q => (q, 0)
  | k + 1, q =>
    let r := evaluateWith api q
    let s := iterEval api k r.1
    (s.1, r.2.2 + s.2)

/-- Evaluation as the properties (`data`, `next_url`, `previous_url`) trigger
it: the evaluated state on success, the escaped exception otherwise. -/
def advanceE (api : API) (q : Queryset) : Except PyErr Queryset :=
  match evaluateWith api q with
  | (q', none, _) => Except.ok q'
  | (_, some e, _) => Except.error e

/-- `bool(self.next_url)` on an already-evaluated instance. -/
def hasNextB (q : Queryset) : Bool :=
  match q.next_url with
  | some u => urlTruthy u
  | none => false

/-- `bool(self.previous_url)` on an already-evaluated instance. -/
def hasPrevB (q : Queryset) : Bool :=
  match q.previous_url with
  | some u => urlTruthy u
  | none => false

/-- `Queryset.next()`: reading `self.next_url` evaluates; then
`Queryset(self.API, self.next_url, self._params)` is constructed, whose
`__init__` updates `self._params` **in place** with the cursor URL's query
pairs and aliases it.  Result: the fresh sibling and the receiver after the
call (params mutated, cache evaluated).  A `None` cursor makes
`urlparse(None)` raise `TypeError`. -/
def nextOp (api : API) (q : Queryset) : Except PyErr (Queryset × Queryset) :=
  match advanceE api q with
  | Except.error e => Except.error e
  | Except.ok q' =>
    match q'.next_url with
    | none => Except.error PyErr.typeError
    | some u =>
      let r := initQS u q'.params
      Except.ok (r.1, { q' with params := r.2 })

/-- `Queryset.previous()`, symmetric to `nextOp`. -/
def previousOp (api : API) (q : Queryset) : Except PyErr (Queryset × Queryset) :=
  match advanceE api q with
  | Except.error e => Except.error e
  | Except.ok q' =>
    match q'.previous_url with
    | none => Except.error PyErr.typeError
    | some u =>
      let r := initQS u q'.params
      Except.ok (r.1, { q' with params := r.2 })

/-- The `while page.has_next(): page = page.next(); yield page` loop of
`all_pages`, fuelled (the produced sequence of a finite cursor chain).  Each
yielded page is given in the evaluated state the loop's own `has_next` check
forces it into. -/
def pagesLoopE (api : API) : Nat → Queryset → Except PyErr (List Queryset)
  | 0, _ => Except.ok []
  | f + 1, page =>
    if hasNextB page then
      match nextOp api page with
      | Except.error e => Except.error e
      | Except.ok pr =>
        match advanceE api pr.1 with
        | Except.error e => Except.error e
        | Except.ok npe =>
          match pagesLoopE api f npe with
          | Except.error e => Except.error e
          | Except.ok rest => Except.ok (npe :: rest)
    else Except.ok []

/-- `Queryset.all_pages()`: yield `self` only when `self.data` is truthy
(non-empty), then walk the `next()` chain. -/
def allPagesE (api : API) (fuel : Nat) (q : Queryset) :
    Except PyErr (List Queryset) :=
  match advanceE api q with
  | Except.error e => Except.error e
  | Except.ok qe =>
    match pagesLoopE api fuel qe with
    | Except.error e => Except.error e
    | Except.ok rest =>
      Except.ok ((if (qe.data.getD []).isEmpty then [] else [qe]) ++ rest)

/-- `Queryset.all()`: `yield from page` for each page of `all_pages()`. -/
def allE (api : API) (fuel : Nat) (q : Queryset) : Except PyErr (List Entity) :=
  match allPagesE api fuel q with
  | Except.error e => Except.error e
  | Except.ok ps => Except.ok (ps.map (fun p => p.data.getD [])).flatten

/-- The value a Python Resource-or-scalar filter argument contributes:
`filter(a=resource)` substitutes `resource.id`. -/
inductive FVal where
  | v (x : Val)
  | res (rid : String)
  deriving DecidableEq, Repr

/-- `"filter" + ''.join(f"[{part}]" for part in key.split('__'))`. -/
def filterKey (k : String) : String :=
  "filter" ++ String.join ((k.splitOn "__").map (fun part => "[" ++ part ++ "]"))

/-- `Queryset.filter(**filters)`: copy the params, store each translated
filter key, build a sibling.  The second component is the receiver after the
call. -/
def filterOp (q : Queryset) (filters : List (String × FVal)) :
    Queryset × Queryset :=
  let ps := filters.foldl
    (fun acc p =>
      setAssoc acc (filterKey p.1)
        (match p.2 with
         | FVal.v x => x
         | FVal.res rid => Val.str rid))
    q.params
  (⟨q.url, ps, none, none, none⟩, q)

/-- The shared `_param_method` builder behind `include`, `sort` and `fields`:
copy the params, store the comma-joined field list under the method's key. -/
def paramMethodOp (pname : String) (q : Queryset) (fields : List String) :
    Queryset × Queryset :=
  let ps := setAssoc q.params pname (Val.str (String.intercalate "," fields))
  (⟨q.url, ps, none, none, none⟩, q)

/-- `Queryset.page(*args, **kwargs)`: one positional argument or only keyword
arguments; anything else raises `ValueError`. -/
def pageOp (q : Queryset) (args : List Val) (kwargs : List (String × Val)) :
    Except PyErr (Queryset × Queryset) :=
  if args.length = 1 && kwargs.isEmpty then
    Except.ok
      (⟨q.url, setAssoc q.params "page" (args.getD 0 (Val.str "")), none, none,
        none⟩, q)
  else if args.isEmpty && !kwargs.isEmpty then
    Except.ok
      (⟨q.url,
        kwargs.foldl
          (fun acc p => setAssoc acc ("page[" ++ p.1 ++ "]") p.2) q.params,
        none, none, none⟩, q)
  else Except.error PyErr.valueError

/-- `Queryset.extra(**kwargs)`: copy the params and merge the passthrough
pairs. -/
def extraOp (q : Queryset) (kwargs : Params) : Queryset × Queryset :=
  (⟨q.url, updateP q.params kwargs, none, none, none⟩, q)

/-- `Queryset.get()`: evaluate, then `DoesNotExist` on an empty page,
`MultipleObjectsReturned(len(self))` on more than one element, the sole
element otherwise. -/
def getOp (api : API) (q : Queryset) : Except PyErr Entity :=
  match advanceE api q with
  | Except.error e => Except.error e
  | Except.ok q' =>
    match q'.data.getD [] with
    | [] => Except.error PyErr.doesNotExist
    | [e] => Except.ok e
    | _ :: rest => Except.error (PyErr.multipleObjects (rest.length + 1))

/-- `f"{key}={value}"` for one params pair (a list value prints as a Python
list literal). -/
def paramPairStr (p : String × Val) : String :=
  p.1 ++ "=" ++
    (match p.2 with
     | Val.str s => s
     | Val.list l =>
       "[" ++ String.intercalate ", " (l.map (fun s => "'" ++ s ++ "'")) ++ "]")

/-- The output of `to_dict` (each entity standing for its own
`item.to_dict()` serialization, which belongs to the collaborator layer). -/
structure ToDictOut where
  data : List Entity
  selfUrl : String
  next : Option String
  previous : Option String

/-- `Queryset.to_dict()`: build the self URL from `_url` and `_params`, then
read the cursors.  `links['next'] = self.next_url()` *calls* the string the
`next_url` property returned, so a present (truthy) next cursor raises
`TypeError`; the `previous` branch has the same call. -/
def toDictOp (api : API) (q : Queryset) : Except PyErr ToDictOut :=
  let selfUrl :=
    if q.params.isEmpty then q.url
    else q.url ++ "?" ++ String.intercalate "&" (q.params.map paramPairStr)
  match advanceE api q with
  | Except.error e => Except.error e
  | Except.ok q' =>
    if hasNextB q' then Except.error PyErr.typeError
    else if hasPrevB q' then Except.error PyErr.typeError
    else Except.ok ⟨q'.data.getD [], selfUrl, none, none⟩

/-! ## Lemmas about the dict model -/

theorem getAssoc_setAssoc {α : Type} (d : List (String × α)) (k k' : String)
    (v : α) :
    getAssoc (setAssoc d k v) k' = if k' = k then some v else getAssoc d k' := by
  induction d with
  | nil =>
    simp only [setAssoc, getAssoc]
    by_cases h : k = k'
    · subst h; simp
    · simp [h, Ne.symm h]
  | cons p rest ih =>
    simp only [setAssoc]
    by_cases hp : p.1 = k
    · simp only [if_pos hp, getAssoc]
      by_cases h : k' = k
      · subst h; simp
      · simp [h, hp, Ne.symm h]
    · simp only [if_neg hp, getAssoc]
      by_cases hq : p.1 = k'
      · have : ¬ k' = k := fun h => hp (h ▸ hq)
        simp [hq, this]
      · simp [hq, ih]

theorem getAssoc_foldl_set {α β : Type} (f : β → α) (e : List (String × β)) :
    ∀ (d : List (String × α)) (k : String),
      getAssoc (e.foldl (fun a p => setAssoc a p.1 (f p.2)) d) k
        = match lastAssoc e k with
          | some v => some (f v)
          | none => getAssoc d k := by
  induction e with
  | nil => intro d k; simp [lastAssoc]
  | cons p rest ih =>
    intro d k
    simp only [List.foldl_cons, ih, lastAssoc]
    cases hrest : lastAssoc rest k with
    | some v => simp
    | none =>
      simp only [getAssoc_setAssoc]
      by_cases h : k = p.1
      · simp [h]
      · rw [if_neg h, if_neg (fun hh => h (Eq.symm hh))]

theorem getAssoc_eq_none_of_not_mem {α : Type} (d : List (String × α))
    (k : String) (h : k ∉ d.map Prod.fst) : getAssoc d k = none := by
  induction d with
  | nil => rfl
  | cons p rest ih =>
    simp only [List.map_cons, List.mem_cons] at h
    push_neg at h
    simp only [getAssoc, if_neg (fun hp => h.1 (Eq.symm hp))]
    exact ih h.2

theorem lastAssoc_eq_none_of_not_mem {α : Type} (d : List (String × α))
    (k : String) (h : k ∉ d.map Prod.fst) : lastAssoc d k = none := by
  induction d with
  | nil => rfl
  | cons p rest ih =>
    simp only [List.map_cons, List.mem_cons] at h
    push_neg at h
    simp only [lastAssoc, ih h.2, if_neg (fun hp => h.1 (Eq.symm hp))]

theorem lastAssoc_of_nodup {α : Type} (d : List (String × α)) (k : String)
    (h : (d.map Prod.fst).Nodup) : lastAssoc d k = getAssoc d k := by
  induction d with
  | nil => rfl
  | cons p rest ih =>
    simp only [List.map_cons, List.nodup_cons] at h
    simp only [lastAssoc, getAssoc, ih h.2]
    by_cases hp : p.1 = k
    · subst hp
      rw [getAssoc_eq_none_of_not_mem rest p.1 h.1]
    · cases getAssoc rest k with
      | some v => simp [hp]
      | none => rfl

theorem setAssoc_append_of_not_mem {α : Type} (d : List (String × α))
    (k : String) (v : α) (h : k ∉ d.map Prod.fst) :
    setAssoc d k v = d ++ [(k, v)] := by
  induction d with
  | nil => rfl
  | cons p rest ih =>
    simp only [List.map_cons, List.mem_cons] at h
    push_neg at h
    simp only [setAssoc, if_neg (fun hp => h.1 (Eq.symm hp)), List.cons_append,
      ih h.2]

theorem getAssoc_map_val {α β : Type} (f : α → β) (d : List (String × α))
    (k : String) :
    getAssoc (d.map (fun p => (p.1, f p.2))) k = (getAssoc d k).map f := by
  induction d with
  | nil => rfl
  | cons p rest ih =>
    simp only [List.map_cons, getAssoc]
    by_cases hp : p.1 = k
    · simp [hp]
    · simp [hp, ih]

/-! ## Lemmas about evaluation -/

/-- `_evaluate` is a no-op on an instance whose `_data` is already set. -/
theorem evaluateWith_done (api : API) (q : Queryset) (h : q.data.isSome = true) :
    evaluateWith api q = (q, none, 0) := by
  simp [evaluateWith, h]

/-- A successful evaluation always leaves `_data` set (`self._data = []`
happens even for an empty page). -/
theorem evaluateWith_ok_isSome (api : API) (q : Queryset)
    (h : (evaluateWith api q).2.1 = none) :
    (evaluateWith api q).1.data.isSome = true := by
  by_cases hd : q.data.isSome
  · simp [evaluateWith, hd]
  · simp only [evaluateWith, hd, if_false, Bool.false_eq_true]
    cases hr : api.request q.url q.params with
    | error e => simp [evaluateWith, hd, hr] at h
    | ok doc =>
      cases hb : (buildEntities api.new (includedLookup doc) doc.data).2 with
      | some e => simp [evaluateWith, hd, hr, hb] at h
      | none => simp [hb]

/-- Pointwise description of `params.update(query_params)`. -/
theorem getAssoc_updateP (d e : Params) (k : String) :
    getAssoc (updateP d e) k
      = match lastAssoc e k with
        | some v => some v
        | none => getAssoc d k := by
  induction e generalizing d with
  | nil => simp [updateP, lastAssoc]
  | cons p rest ih =>
    simp only [updateP, List.foldl_cons, lastAssoc] at *
    rw [ih]
    cases hrest : lastAssoc rest k with
    | some v => simp
    | none =>
      simp only [getAssoc_setAssoc]
      by_cases h : k = p.1
      · simp [h]
      · rw [if_neg h, if_neg (fun hh => h (Eq.symm hh))]

/-! ## C3: evaluation is idempotent per instance -/

/-- **C3**: after a first successful evaluation, a further evaluation is a
no-op issuing zero transport requests, and any number `k` of further
evaluation-triggering accesses together issue zero requests and leave the
state fixed — so the transport is invoked at most once after a success, also
when the evaluated page's data list is empty (`self._data = []` still guards
the memoization check). -/
theorem evaluation_memoized (api : API) (q : Queryset)
    (h : (evaluateWith api q).2.1 = none) :
    evaluateWith api (evaluateWith api q).1 = ((evaluateWith api q).1, none, 0)
    ∧ ∀ k, iterEval api k (evaluateWith api q).1
        = ((evaluateWith api q).1, 0) := by
  have hs := evaluateWith_ok_isSome api q h
  constructor
  · exact evaluateWith_done api _ hs
  · intro k
    induction k with
    | zero => rfl
    | succ n ih => simp [iterEval, evaluateWith_done api _ hs, ih]

/-- A transport returning a fixed empty page. -/
def memoApi : API :=
  ⟨fun _ _ => Except.ok ⟨[], [], ⟨none, none⟩⟩, defaultNew⟩

/-- A fresh unevaluated queryset over `memoApi`. -/
def memoQ : Queryset := ⟨"/collection", [], none, none, none⟩

theorem evaluation_memoized_witness :
    (evaluateWith memoApi memoQ).2.1 = none
    ∧ evaluateWith memoApi (evaluateWith memoApi memoQ).1
        = ((evaluateWith memoApi memoQ).1, none, 0) :=
  ⟨rfl, (evaluation_memoized memoApi memoQ rfl).1⟩

/-! ## C10: construction mutates the caller-supplied params dict -/

/-- **C10**: `__init__` merges every key/value pair parsed from the URL's
query string into the very dictionary the caller passed (overwriting
colliding entries, keeping the rest), and the constructed instance aliases
that same dictionary — so the mutation is observable to the caller after
construction returns. -/
theorem init_mutates_caller_params (u : Url) (params : Params) (k : String) :
    (initQS u params).2 = (initQS u params).1.params
    ∧ (∀ v, lastAssoc (parseQS u.query) k = some v →
        getAssoc (initQS u params).2 k = some v)
    ∧ (lastAssoc (parseQS u.query) k = none →
        getAssoc (initQS u params).2 k = getAssoc params k) := by
  refine ⟨rfl, ?_, ?_⟩
  · intro v hv
    show getAssoc (updateP params (parseQS u.query)) k = some v
    rw [getAssoc_updateP, hv]
  · intro hv
    show getAssoc (updateP params (parseQS u.query)) k = getAssoc params k
    rw [getAssoc_updateP, hv]

theorem init_mutates_caller_params_witness :
    getAssoc ((initQS ⟨"/projects", [("filter[x]", "1")]⟩
        [("sort", Val.str "name")]).2) "filter[x]" = some (Val.str "1")
    ∧ getAssoc ((initQS ⟨"/projects", [("filter[x]", "1")]⟩
        [("sort", Val.str "name")]).2) "sort"
        = getAssoc [("sort", Val.str "name")] "sort" :=
  ⟨(init_mutates_caller_params ⟨"/projects", [("filter[x]", "1")]⟩
      [("sort", Val.str "name")] "filter[x]").2.1 (Val.str "1") rfl,
   (init_mutates_caller_params ⟨"/projects", [("filter[x]", "1")]⟩
      [("sort", Val.str "name")] "sort").2.2 rfl⟩

/-! ## C2: precedence between URL query pairs and explicit params -/

/-- **C2 counterexample**: constructing from a URL whose query string carries
`a=1` together with explicit params `{a: "2"}` yields params holding the
URL-derived `"1"`, not the explicitly passed `"2"` — `params.update(query_params)`
lets URL-derived pairs overwrite explicit ones, the opposite of the claim. -/
theorem explicit_params_lose_cex :
    getAssoc ((initQS ⟨"/collections", [("a", "1")]⟩
        [("a", Val.str "2")]).1.params) "a" = some (Val.str "1")
    ∧ Val.str "1" ≠ Val.str "2" :=
  ⟨rfl, by decide⟩

/-- **C2 amended**: on a key collision the resulting params hold the
URL-derived value — explicit params act as defaults and the URL's query
pairs override them; keys absent from the query string keep their explicit
value. -/
theorem url_query_overrides_explicit (u : Url) (params : Params) (k : String) :
    (∀ v, lastAssoc (parseQS u.query) k = some v →
        getAssoc ((initQS u params).1.params) k = some v)
    ∧ (lastAssoc (parseQS u.query) k = none →
        getAssoc ((initQS u params).1.params) k = getAssoc params k) := by
  constructor
  · intro v hv
    show getAssoc (updateP params (parseQS u.query)) k = some v
    rw [getAssoc_updateP, hv]
  · intro hv
    show getAssoc (updateP params (parseQS u.query)) k = getAssoc params k
    rw [getAssoc_updateP, hv]

theorem url_query_overrides_explicit_witness :
    getAssoc ((initQS ⟨"/c", [("a", "1")]⟩
        [("a", Val.str "2"), ("b", Val.str "3")]).1.params) "a"
      = some (Val.str "1")
    ∧ getAssoc ((initQS ⟨"/c", [("a", "1")]⟩
        [("a", Val.str "2"), ("b", Val.str "3")]).1.params) "b"
      = getAssoc [("a", Val.str "2"), ("b", Val.str "3")] "b" :=
  ⟨(url_query_overrides_explicit ⟨"/c", [("a", "1")]⟩
      [("a", Val.str "2"), ("b", Val.str "3")] "a").1 (Val.str "1") rfl,
   (url_query_overrides_explicit ⟨"/c", [("a", "1")]⟩
      [("a", Val.str "2"), ("b", Val.str "3")] "b").2 rfl⟩

/-! ## C4: atomicity of evaluation with respect to failure -/

/-- Equation: evaluation of an unevaluated instance under a failing
transport. -/
theorem evaluateWith_eq_of_err (api : API) (q : Queryset)
    (h : q.data = none) (er : Unit)
    (hr : api.request q.url q.params = Except.error er) :
    evaluateWith api q = (q, some PyErr.transportError, 1) := by
  simp [evaluateWith, h, hr]

/-- Equation: evaluation of an unevaluated instance when the item loop fails
partway. -/
theorem evaluateWith_eq_of_ok_err (api : API) (q : Queryset) (doc : Document)
    (e : PyErr) (h : q.data = none)
    (hr : api.request q.url q.params = Except.ok doc)
    (hb : (buildEntities api.new (includedLookup doc) doc.data).2 = some e) :
    evaluateWith api q
      = ({ q with
            data := some (buildEntities api.new (includedLookup doc)
              doc.data).1 }, some e, 1) := by
  simp [evaluateWith, h, hr, hb]

/-- Equation: fully successful evaluation of an unevaluated instance. -/
theorem evaluateWith_eq_of_ok_ok (api : API) (q : Queryset) (doc : Document)
    (h : q.data = none)
    (hr : api.request q.url q.params = Except.ok doc)
    (hb : (buildEntities api.new (includedLookup doc) doc.data).2 = none) :
    evaluateWith api q
      = ({ q with
            data := some (buildEntities api.new (includedLookup doc)
              doc.data).1,
            next_url := doc.links.next,
            previous_url := doc.links.previous }, none, 1) := by
  simp [evaluateWith, h, hr, hb]

/-- The number of transport requests one evaluation trigger issues: none on a
memoized instance, exactly one otherwise. -/
theorem evaluateWith_request_count (api : API) (q : Queryset) :
    (evaluateWith api q).2.2 = if q.data.isSome then 0 else 1 := by
  cases hq : q.data with
  | some l => simp [evaluateWith, hq]
  | none =>
    simp only [hq, Option.isSome_none, Bool.false_eq_true, if_false]
    cases hr : api.request q.url q.params with
    | error e => rw [evaluateWith_eq_of_err api q hq e hr]
    | ok doc =>
      cases hb : (buildEntities api.new (includedLookup doc) doc.data).2 with
      | some e => rw [evaluateWith_eq_of_ok_err api q doc e hq hr hb]
      | none => rw [evaluateWith_eq_of_ok_ok api q doc hq hr hb]

/-- An entity constructor that raises while building the entity whose id is
`"2"`. -/
def failNew : NewFn := fun c r =>
  if c.id = "2" then Except.error () else Except.ok (Entity.mk c r)

/-- A transport returning a two-item page whose second item's construction
fails. -/
def partialApi : API :=
  ⟨fun _ _ => Except.ok ⟨[⟨"p", "1", [], []⟩, ⟨"p", "2", [], []⟩], [],
    ⟨none, none⟩⟩, failNew⟩

/-- A fresh unevaluated queryset over `partialApi`. -/
def partialQ : Queryset := ⟨"/c", [], none, none, none⟩

/-- **C4 counterexample**: when the entity constructor fails on the second of
two items, the failure propagates but the cache is *not* left Unevaluated: it
holds exactly the one successfully built entity, and the subsequent access
issues no further request instead of retrying. -/
theorem partial_cache_cex :
    (evaluateWith partialApi partialQ).2.1 = some PyErr.newError
    ∧ (evaluateWith partialApi partialQ).1.data.isSome = true
    ∧ ((evaluateWith partialApi partialQ).1.data.getD []).length = 1
    ∧ (evaluateWith partialApi (evaluateWith partialApi partialQ).1).2.2 = 0 :=
  ⟨rfl, rfl, rfl, rfl⟩

/-- **C4 amended**: every failure during evaluation propagates unwrapped, but
the two failure sources differ: a transport failure leaves the instance
exactly as it was (cache Unevaluated, so the next access issues a fresh
request), while an entity-constructor (or relationship-shape) failure partway
leaves the cache populated with the prefix built so far, so the next access
issues no request. -/
theorem evaluation_failure_amended (api : API) (q : Queryset)
    (h : q.data = none) :
    ((∃ er, api.request q.url q.params = Except.error er) →
      evaluateWith api q = (q, some PyErr.transportError, 1)
      ∧ (evaluateWith api (evaluateWith api q).1).2.2 = 1)
    ∧ (∀ e, (evaluateWith api q).2.1 = some e → e ≠ PyErr.transportError →
      (evaluateWith api q).1.data.isSome = true
      ∧ (evaluateWith api (evaluateWith api q).1).2.2 = 0) := by
  have hs : q.data.isSome = false := by rw [h]; rfl
  constructor
  · rintro ⟨er, hr⟩
    have he := evaluateWith_eq_of_err api q h er hr
    refine ⟨he, ?_⟩
    rw [he]
    show (evaluateWith api q).2.2 = 1
    rw [evaluateWith_request_count, hs]
    rfl
  · intro e he hne
    have hiss : (evaluateWith api q).1.data.isSome = true := by
      cases hr : api.request q.url q.params with
      | error er =>
        rw [evaluateWith_eq_of_err api q h er hr] at he
        simp only [Option.some.injEq] at he
        exact absurd he.symm hne
      | ok doc =>
        cases hb : (buildEntities api.new (includedLookup doc) doc.data).2 with
        | some e' => rw [evaluateWith_eq_of_ok_err api q doc e' h hr hb]; rfl
        | none => rw [evaluateWith_eq_of_ok_ok api q doc h hr hb]; rfl
    refine ⟨hiss, ?_⟩
    rw [evaluateWith_request_count, hiss]
    rfl

/-- A transport that always fails. -/
def failApi : API := ⟨fun _ _ => Except.error (), defaultNew⟩

/-- A fresh unevaluated queryset over `failApi`. -/
def failQ : Queryset := ⟨"/x", [], none, none, none⟩

theorem evaluation_failure_amended_witness :
    evaluateWith failApi failQ = (failQ, some PyErr.transportError, 1)
    ∧ (evaluateWith failApi (evaluateWith failApi failQ).1).2.2 = 1 :=
  (evaluation_failure_amended failApi failQ rfl).1 ⟨(), rfl⟩

/-! ## C8: get() -/

/-- **C8**: `get()` evaluates and then raises `DoesNotExist` exactly on an
empty page, raises `MultipleObjectsReturned` carrying the element count
exactly on a page with more than one element, and returns the unique element
otherwise. -/
theorem get_semantics (api : API) (q q' : Queryset)
    (h : advanceE api q = Except.ok q') :
    ((q'.data.getD []).length = 0 →
      getOp api q = Except.error PyErr.doesNotExist)
    ∧ ((q'.data.getD []).length > 1 →
      getOp api q
        = Except.error (PyErr.multipleObjects (q'.data.getD []).length))
    ∧ (∀ e, q'.data.getD [] = [e] → getOp api q = Except.ok e) := by
  have hg : getOp api q
      = (match q'.data.getD [] with
        | [] => Except.error PyErr.doesNotExist
        | [e] => Except.ok e
        | _ :: rest => Except.error (PyErr.multipleObjects (rest.length + 1))) := by
    unfold getOp
    rw [h]
  refine ⟨?_, ?_, ?_⟩
  · intro hl
    rw [hg]
    cases hd : q'.data.getD [] with
    | nil => rfl
    | cons a t => rw [hd] at hl; simp at hl
  · intro hl
    rw [hg]
    cases hd : q'.data.getD [] with
    | nil => rw [hd] at hl; simp at hl
    | cons a t =>
      cases t with
      | nil => rw [hd] at hl; simp at hl
      | cons b t2 => simp [List.length_cons]
  · intro e he
    rw [hg, he]

/-- A transport returning a fixed two-item page. -/
def twoApi : API :=
  ⟨fun _ _ => Except.ok ⟨[⟨"p", "1", [], []⟩, ⟨"p", "2", [], []⟩], [],
    ⟨none, none⟩⟩, defaultNew⟩

/-- A fresh unevaluated queryset over `twoApi`. -/
def getQ : Queryset := ⟨"/c", [], none, none, none⟩

theorem get_semantics_witness :
    getOp twoApi getQ
      = Except.error (PyErr.multipleObjects
          ((evaluateWith twoApi getQ).1.data.getD []).length) :=
  (get_semantics twoApi getQ (evaluateWith twoApi getQ).1 rfl).2.1 (by decide)

/-! ## C6: a null relationship data pointer crashes evaluation -/

/-- A transport returning one item whose `owner` relationship is
`{"data": null}` — a shape the declared wire format allows. -/
def nullRelApi : API :=
  ⟨fun _ _ => Except.ok
    ⟨[⟨"proj", "1", [], [("owner", RelEntry.data none)]⟩], [], ⟨none, none⟩⟩,
   defaultNew⟩

/-- A fresh unevaluated queryset over `nullRelApi`. -/
def nullRelQ : Queryset := ⟨"/c", [], none, none, none⟩

/-- **C6 (code bug)**: on a document whose relationship entry has
`"data": null`, evaluation fails with a `TypeError`
(`relationship['data']['type']` subscripts `None`; the guard only checks for
a `None` entry or a missing `'data'` key) instead of skipping the entry and
completing. -/
theorem null_reldata_evaluation_fails :
    (evaluateWith nullRelApi nullRelQ).2.1 = some PyErr.typeError :=
  rfl

/-! ## C9: to_dict with a pagination cursor present -/

/-- A transport returning an empty page whose `links.next` is a (truthy)
cursor URL. -/
def cursorApi : API :=
  ⟨fun _ _ => Except.ok ⟨[], [], ⟨some ⟨"/c", [("page", "2")]⟩, none⟩⟩,
   defaultNew⟩

/-- A transport returning an empty page with no cursors. -/
def noCursorApi : API :=
  ⟨fun _ _ => Except.ok ⟨[], [], ⟨none, none⟩⟩, defaultNew⟩

/-- A fresh unevaluated queryset used against both transports. -/
def cursorQ : Queryset := ⟨"/c", [], none, none, none⟩

/-- **C9 (code bug)**: `to_dict` raises `TypeError` whenever a next (or
previous) cursor is present, because `links['next'] = self.next_url()` calls
the string the `next_url` property returned; only with both cursors absent
does it return the claimed `{data, links: {self, next: null, previous: null}}`
structure. -/
theorem to_dict_next_cursor_fails :
    toDictOp cursorApi cursorQ = Except.error PyErr.typeError
    ∧ toDictOp noCursorApi cursorQ = Except.ok ⟨[], "/c", none, none⟩ :=
  ⟨rfl, rfl⟩

/-! ## C1: is a Queryset's identity really never mutated? -/

/-- A transport returning an empty page whose next cursor carries a query
string. -/
def mutApi : API :=
  ⟨fun _ _ => Except.ok ⟨[], [], ⟨some ⟨"/c", [("cursor", "abc")]⟩, none⟩⟩,
   defaultNew⟩

/-- A fresh queryset with one explicit parameter over `mutApi`. -/
def mutQ : Queryset := ⟨"/c", [("a", Val.str "1")], none, none, none⟩

/-- **C1 counterexample**: calling `next()` on a queryset whose cursor URL
carries `cursor=abc` leaves the receiver with `params` containing that pair
(its `__init__` runs `update` on the very dict the receiver holds) and with
its cache evaluated — the receiver's params mapping and cache state are *not*
as they were before the call. -/
theorem queryset_identity_cex :
    nextOp mutApi mutQ
      = Except.ok
          (⟨"/c", [("a", Val.str "1"), ("cursor", Val.str "abc")], none, none,
            none⟩,
           ⟨"/c", [("a", Val.str "1"), ("cursor", Val.str "abc")], some [],
            some ⟨"/c", [("cursor", "abc")]⟩, none⟩)
    ∧ [("a", Val.str "1"), ("cursor", Val.str "abc")] ≠ mutQ.params :=
  ⟨rfl, by decide⟩

/-- **C1 amended**: every chaining call (`filter`, `include`, `sort`,
`fields`, `page`, `extra`) copies the params and leaves the receiver exactly
as it was; the pagination calls (`next`, `previous`) return a fresh sibling
but first force evaluation of the receiver and then mutate the receiver's
params mapping in place with the cursor URL's query pairs — the sibling
aliases that updated mapping. -/
theorem chaining_pure_pagination_mutates (api : API) (q : Queryset) :
    (∀ fs, (filterOp q fs).2 = q)
    ∧ (∀ fl, (paramMethodOp "include" q fl).2 = q)
    ∧ (∀ fl, (paramMethodOp "sort" q fl).2 = q)
    ∧ (∀ fl, (paramMethodOp "fields" q fl).2 = q)
    ∧ (∀ args kwargs r, pageOp q args kwargs = Except.ok r → r.2 = q)
    ∧ (∀ kw, (extraOp q kw).2 = q)
    ∧ (∀ q' u pr, advanceE api q = Except.ok q' → q'.next_url = some u →
        nextOp api q = Except.ok pr →
        pr.1 = (initQS u q'.params).1
        ∧ pr.2 = { q' with params := (initQS u q'.params).2 })
    ∧ (∀ q' u pr, advanceE api q = Except.ok q' → q'.previous_url = some u →
        previousOp api q = Except.ok pr →
        pr.1 = (initQS u q'.params).1
        ∧ pr.2 = { q' with params := (initQS u q'.params).2 }) := by
  refine ⟨fun _ => rfl, fun _ => rfl, fun _ => rfl, fun _ => rfl, ?_,
    fun _ => rfl, ?_, ?_⟩
  · intro args kwargs r hr
    unfold pageOp at hr
    split_ifs at hr with h1 h2
    · simp only [Except.ok.injEq] at hr
      rw [← hr]
    · simp only [Except.ok.injEq] at hr
      rw [← hr]
  · intro q' u pr h1 h2 h3
    simp only [nextOp, h1, h2] at h3
    simp only [Except.ok.injEq] at h3
    rw [← h3]
    refine ⟨rfl, ?_⟩
    rw [h2]
  · intro q' u pr h1 h2 h3
    simp only [previousOp, h1, h2] at h3
    simp only [Except.ok.injEq] at h3
    rw [← h3]
    refine ⟨rfl, ?_⟩
    rw [h2]

/-- The evaluated receiver, next-cursor URL and `next()` result used to
witness the amended C1. -/
def mutQ1 : Queryset := (evaluateWith mutApi mutQ).1

def mutU : Url := ⟨"/c", [("cursor", "abc")]⟩

def mutPr : Queryset × Queryset :=
  ((initQS mutU mutQ1.params).1,
   { mutQ1 with params := (initQS mutU mutQ1.params).2 })

theorem chaining_pure_pagination_mutates_witness :
    (filterOp mutQ [("a", FVal.v (Val.str "5"))]).2 = mutQ
    ∧ mutPr.1 = (initQS mutU mutQ1.params).1
    ∧ mutPr.2 = { mutQ1 with params := (initQS mutU mutQ1.params).2 } :=
  ⟨(chaining_pure_pagination_mutates mutApi mutQ).1 _,
   (chaining_pure_pagination_mutates mutApi mutQ).2.2.2.2.2.2.1
     mutQ1 mutU mutPr rfl rfl rfl⟩

/-! ## C5: relationship resolution against the included side-table -/

/-- The entity `self.API.new(included[key])` constructs with the default
constructor: the included record's core plus its own still-raw
relationships. -/
def incEntity (it : Item) : Entity :=
  Entity.mk it.core (it.relationships.map (fun p => (p.1, Sum.inl p.2)))

/-- The value of the `related` dict after the loop, described directly: one
entry per relationship whose non-null pointer hits the side-table. -/
def relatedSpec (lk : String × String → Option Item)
    (rels : List (String × RelEntry)) : List (String × Entity) :=
  rels.filterMap (fun p =>
    match p.2 with
    | RelEntry.data (some ptr) =>
      (lk (ptr.type, ptr.id)).map (fun inc => (p.1, incEntity inc))
    | _ => none)

theorem except_ok_bind {α β : Type} (a : α) (f : α → Except PyErr β) :
    (Except.ok a >>= f) = f a := rfl

theorem buildRelated_go (lk : String × String → Option Item)
    (rels : List (String × RelEntry)) :
    ∀ (acc : List (String × Entity)),
      (∀ p ∈ rels, p.2 ≠ RelEntry.data none) →
      (∀ p ∈ rels, p.1 ∉ acc.map Prod.fst) →
      (rels.map Prod.fst).Nodup →
      rels.foldlM (fun a p => resolveStep defaultNew lk a p.1 p.2) acc
        = Except.ok (acc ++ relatedSpec lk rels) := by
  induction rels with
  | nil => intro acc _ _ _; simp [relatedSpec]; rfl
  | cons p rest ih =>
    intro acc hnn hdisj hn
    have hnn' : ∀ r ∈ rest, r.2 ≠ RelEntry.data none :=
      fun r hr => hnn r (List.mem_cons_of_mem _ hr)
    have hn' : (rest.map Prod.fst).Nodup := (List.nodup_cons.mp hn).2
    have hhd : p.1 ∉ rest.map Prod.fst := (List.nodup_cons.mp hn).1
    rw [List.foldlM_cons]
    rcases p with ⟨nm, re⟩
    cases re with
    | null =>
      have hstep : resolveStep defaultNew lk acc nm RelEntry.null
          = Except.ok acc := rfl
      rw [hstep, except_ok_bind,
        ih acc hnn' (fun r hr => hdisj r (List.mem_cons_of_mem _ hr)) hn']
      simp [relatedSpec]
    | noData =>
      have hstep : resolveStep defaultNew lk acc nm RelEntry.noData
          = Except.ok acc := rfl
      rw [hstep, except_ok_bind,
        ih acc hnn' (fun r hr => hdisj r (List.mem_cons_of_mem _ hr)) hn']
      simp [relatedSpec]
    | data op =>
      cases op with
      | none => exact absurd rfl (hnn (nm, RelEntry.data none) (List.mem_cons_self _ _))
      | some ptr =>
        cases hlk : lk (ptr.type, ptr.id) with
        | none =>
          have hstep : resolveStep defaultNew lk acc nm
              (RelEntry.data (some ptr)) = Except.ok acc := by
            simp [resolveStep, hlk]
          rw [hstep, except_ok_bind,
            ih acc hnn' (fun r hr => hdisj r (List.mem_cons_of_mem _ hr)) hn']
          simp [relatedSpec, hlk]
        | some inc =>
          have hstep : resolveStep defaultNew lk acc nm
              (RelEntry.data (some ptr))
              = Except.ok (setAssoc acc nm (incEntity inc)) := by
            simp [resolveStep, hlk, defaultNew, incEntity]
          rw [hstep, except_ok_bind]
          rw [setAssoc_append_of_not_mem acc nm _
            (hdisj (nm, RelEntry.data (some ptr)) (List.mem_cons_self _ _))]
          rw [ih (acc ++ [(nm, incEntity inc)]) hnn' ?_ hn']
          · simp [relatedSpec, hlk]
          · intro r hr
            simp only [List.map_append, List.mem_append, List.map_cons,
              List.map_nil, List.mem_singleton, not_or]
            refine ⟨fun hin => hdisj r (List.mem_cons_of_mem _ hr) hin, ?_⟩
            intro hrnm
            have hm : r.1 ∈ rest.map Prod.fst := List.mem_map_of_mem Prod.fst hr
            rw [hrnm] at hm
            exact hhd hm

/-- The `related` dict the loop builds, in closed form. -/
theorem buildRelated_eq (lk : String × String → Option Item)
    (rels : List (String × RelEntry))
    (hnn : ∀ p ∈ rels, p.2 ≠ RelEntry.data none)
    (hn : (rels.map Prod.fst).Nodup) :
    buildRelated defaultNew lk rels = Except.ok (relatedSpec lk rels) := by
  have h := buildRelated_go lk rels [] hnn (by intro p _; simp) hn
  simpa [buildRelated] using h

theorem relatedSpec_keys_sublist (lk : String × String → Option Item)
    (rels : List (String × RelEntry)) :
    ((relatedSpec lk rels).map Prod.fst).Sublist (rels.map Prod.fst) := by
  induction rels with
  | nil => simp [relatedSpec]
  | cons p rest ih =>
    simp only [relatedSpec, List.filterMap_cons] at *
    cases hre : p.2 with
    | data op =>
      cases op with
      | none => simpa using ih.cons p.1
      | some ptr =>
        cases hlk : lk (ptr.type, ptr.id) with
        | none => simpa [hlk] using ih.cons p.1
        | some inc => simpa [hlk] using ih.cons₂ p.1
    | null => simpa using ih.cons p.1
    | noData => simpa using ih.cons p.1

/-- Pointwise contents of the `related` dict. -/
theorem getAssoc_relatedSpec (lk : String × String → Option Item)
    (rels : List (String × RelEntry)) (nm : String)
    (hn : (rels.map Prod.fst).Nodup) :
    getAssoc (relatedSpec lk rels) nm
      = match getAssoc rels nm with
        | some (RelEntry.data (some ptr)) =>
          (lk (ptr.type, ptr.id)).map incEntity
        | _ => none := by
  induction rels with
  | nil => simp [relatedSpec, getAssoc]
  | cons p rest ih =>
    have hn' : (rest.map Prod.fst).Nodup := (List.nodup_cons.mp hn).2
    have hhd : p.1 ∉ rest.map Prod.fst := (List.nodup_cons.mp hn).1
    by_cases hp : p.1 = nm
    · subst hp
      have habs : getAssoc (relatedSpec lk rest) p.1 = none := by
        apply getAssoc_eq_none_of_not_mem
        intro hmem
        exact hhd ((relatedSpec_keys_sublist lk rest).mem hmem)
      simp only [relatedSpec, List.filterMap_cons, getAssoc, if_pos rfl]
      cases hre : p.2 with
      | data op =>
        cases op with
        | none => simpa [hre, relatedSpec] using habs
        | some ptr =>
          cases hlk : lk (ptr.type, ptr.id) with
          | none => simpa [hlk, relatedSpec] using habs
          | some inc => simp [hlk, getAssoc]
      | null => simpa [relatedSpec] using habs
      | noData => simpa [relatedSpec] using habs
    · have hga : getAssoc ((p.1, p.2) :: rest) nm = getAssoc rest nm := by
        simp [getAssoc, hp]
      simp only [relatedSpec, List.filterMap_cons]
      cases hre : p.2 with
      | data op =>
        cases op with
        | none => simpa [hre, relatedSpec, getAssoc, hp] using ih hn'
        | some ptr =>
          cases hlk : lk (ptr.type, ptr.id) with
          | none => simpa [hre, hlk, relatedSpec, getAssoc, hp] using ih hn'
          | some inc => simpa [hre, hlk, relatedSpec, getAssoc, hp] using ih hn'
      | null => simpa [hre, relatedSpec, getAssoc, hp] using ih hn'
      | noData => simpa [hre, relatedSpec, getAssoc, hp] using ih hn'

/-- The relationships mapping passed to `API.new` for a `data` element: the
popped raw mapping updated in place with the resolved entries. -/
def mergedOf (lk : String × String → Option Item)
    (rels : List (String × RelEntry)) : List (String × (RelEntry ⊕ Entity)) :=
  (relatedSpec lk rels).foldl (fun a p => setAssoc a p.1 (Sum.inr p.2))
    (rels.map (fun p => (p.1, Sum.inl p.2)))

theorem getAssoc_mergeRels (related : List (String × Entity)) :
    ∀ (base : List (String × (RelEntry ⊕ Entity))) (k : String),
      getAssoc (related.foldl (fun a p => setAssoc a p.1 (Sum.inr p.2)) base) k
        = match lastAssoc related k with
          | some v => some (Sum.inr v)
          | none => getAssoc base k := by
  induction related with
  | nil => intro base k; simp [lastAssoc]
  | cons p rest ih =>
    intro base k
    simp only [List.foldl_cons, lastAssoc]
    rw [ih]
    cases hrest : lastAssoc rest k with
    | some v => simp
    | none =>
      simp only [getAssoc_setAssoc]
      by_cases h : k = p.1
      · simp [h]
      · rw [if_neg h, if_neg (fun hh => h (Eq.symm hh))]

/-- The value item evaluation produces, in closed form (default constructor,
well-formed relationships). -/
theorem evalItem_eq (lk : String × String → Option Item) (item : Item)
    (hn : (item.relationships.map Prod.fst).Nodup)
    (hnn : ∀ p ∈ item.relationships, p.2 ≠ RelEntry.data none) :
    evalItem defaultNew lk item
      = Except.ok (Entity.mk item.core (mergedOf lk item.relationships)) := by
  unfold evalItem
  rw [buildRelated_eq lk item.relationships hnn hn]
  rfl

/-- Pointwise contents of the merged relationships mapping. -/
theorem mergedOf_lookup (lk : String × String → Option Item)
    (rels : List (String × RelEntry))
    (hn : (rels.map Prod.fst).Nodup) (nm : String) :
    getAssoc (mergedOf lk rels) nm
      = match getAssoc rels nm with
        | some (RelEntry.data (some ptr)) =>
          match lk (ptr.type, ptr.id) with
          | some inc => some (Sum.inr (incEntity inc))
          | none => some (Sum.inl (RelEntry.data (some ptr)))
        | some re => some (Sum.inl re)
        | none => none := by
  unfold mergedOf
  rw [getAssoc_mergeRels]
  rw [lastAssoc_of_nodup _ _ (hn.sublist (relatedSpec_keys_sublist lk rels))]
  rw [getAssoc_relatedSpec lk rels nm hn]
  rw [getAssoc_map_val]
  cases hre : getAssoc rels nm with
  | none => simp
  | some re =>
    cases re with
    | data op =>
      cases op with
      | none => simp
      | some ptr =>
        cases hlk : lk (ptr.type, ptr.id) with
        | none => simp [hlk]
        | some inc => simp [hlk]
    | null => simp
    | noData => simp

theorem except_error_bind {α β : Type} (e : PyErr)
    (f : α → Except PyErr β) : (Except.error e >>= f) = Except.error e := rfl

/-- A successful `related` loop implies no relationship entry had a null
`data` pointer (the loop would have raised `TypeError`). -/
theorem foldlM_resolveStep_ok (nf : NewFn) (lk : String × String → Option Item)
    (rels : List (String × RelEntry)) :
    ∀ (acc res : List (String × Entity)),
      rels.foldlM (fun a p => resolveStep nf lk a p.1 p.2) acc
        = Except.ok res →
      ∀ p ∈ rels, p.2 ≠ RelEntry.data none := by
  induction rels with
  | nil => intro acc res _ p hp; exact absurd hp (List.not_mem_nil p)
  | cons hd rest ih =>
    intro acc res h p hp
    rw [List.foldlM_cons] at h
    cases hstep : resolveStep nf lk acc hd.1 hd.2 with
    | error e => rw [hstep, except_error_bind] at h; simp at h
    | ok acc' =>
      rw [hstep, except_ok_bind] at h
      rcases List.mem_cons.mp hp with hpe | hpm
      · subst hpe
        intro hcon
        rw [hcon] at hstep
        simp [resolveStep] at hstep
      · exact ih acc' res h p hpm

theorem evalItem_ok_no_null (lk : String × String → Option Item)
    (item : Item) (ent : Entity)
    (h : evalItem defaultNew lk item = Except.ok ent) :
    ∀ p ∈ item.relationships, p.2 ≠ RelEntry.data none := by
  unfold evalItem at h
  cases hbr : buildRelated defaultNew lk item.relationships with
  | error e => rw [hbr] at h; simp at h
  | ok related =>
    have hbr' := hbr
    simp only [buildRelated] at hbr'
    exact foldlM_resolveStep_ok defaultNew lk item.relationships [] related hbr'

/-- Every entity of a fully successful item loop satisfies the closed-form
relationship characterization of its source item. -/
theorem buildEntities_resolution (lk : String × String → Option Item)
    (items : List Item)
    (hok : (buildEntities defaultNew lk items).2 = none)
    (hnd : ∀ it ∈ items, (it.relationships.map Prod.fst).Nodup) :
    List.Forall₂ (fun it ent => ∀ nm,
        getAssoc ent.rels nm
          = match getAssoc it.relationships nm with
            | some (RelEntry.data (some ptr)) =>
              match lk (ptr.type, ptr.id) with
              | some inc => some (Sum.inr (incEntity inc))
              | none => some (Sum.inl (RelEntry.data (some ptr)))
            | some re => some (Sum.inl re)
            | none => none)
      items (buildEntities defaultNew lk items).1 := by
  induction items with
  | nil => exact List.Forall₂.nil
  | cons it rest ih =>
    cases hit : evalItem defaultNew lk it with
    | error e =>
      have : (buildEntities defaultNew lk (it :: rest)).2 = some e := by
        simp only [buildEntities]
        rw [hit]
      rw [this] at hok
      exact absurd hok (by simp)
    | ok ent =>
      have heq : buildEntities defaultNew lk (it :: rest)
          = (ent :: (buildEntities defaultNew lk rest).1,
             (buildEntities defaultNew lk rest).2) := by
        simp only [buildEntities]
        rw [hit]
      rw [heq] at hok ⊢
      refine List.Forall₂.cons ?_
        (ih hok (fun i hi => hnd i (List.mem_cons_of_mem _ hi)))
      have hnn := evalItem_ok_no_null lk it ent hit
      have hn := hnd it (List.mem_cons_self _ _)
      have hchar := evalItem_eq lk it hn hnn
      rw [hchar] at hit
      simp only [Except.ok.injEq] at hit
      intro nm
      rw [← hit]
      show getAssoc (mergedOf lk it.relationships) nm = _
      exact mergedOf_lookup lk it.relationships hn nm

/-- The per-element resolution property claimed of an evaluated document:
relationship entries with a non-null pointer into `included` resolve to the
entity constructed from the matching included record (overriding the raw
entry under that name); entries whose target is absent stay raw
(unresolved). -/
def ResolutionProp (lk : String × String → Option Item) (it : Item)
    (ent : Entity) : Prop :=
  ∀ nm ptr, getAssoc it.relationships nm = some (RelEntry.data (some ptr)) →
    ((∀ inc, lk (ptr.type, ptr.id) = some inc →
        getAssoc ent.rels nm = some (Sum.inr (incEntity inc)))
     ∧ (lk (ptr.type, ptr.id) = none →
        getAssoc ent.rels nm = some (Sum.inl (RelEntry.data (some ptr)))))

/-- **C5**: for a successfully evaluated document (default entity
constructor, per-item relationship names unique as JSON objects make them),
every `data` element is realized as an entity in which each relationship
entry with a non-null `(type, id)` pointer found in the `included` side-table
is replaced by the entity constructed from that included record, while
entries whose target is absent from `included` are left unresolved (their raw
wire entry is kept, not an entity). -/
theorem relationship_resolution (api : API) (q : Queryset) (doc : Document)
    (h : q.data = none)
    (hnew : api.new = defaultNew)
    (hr : api.request q.url q.params = Except.ok doc)
    (hnd : ∀ it ∈ doc.data, (it.relationships.map Prod.fst).Nodup)
    (hsucc : (evaluateWith api q).2.1 = none) :
    List.Forall₂ (ResolutionProp (includedLookup doc)) doc.data
      ((evaluateWith api q).1.data.getD []) := by
  have hb : (buildEntities api.new (includedLookup doc) doc.data).2 = none := by
    cases hb' : (buildEntities api.new (includedLookup doc) doc.data).2 with
    | none => rfl
    | some e =>
      rw [evaluateWith_eq_of_ok_err api q doc e h hr hb'] at hsucc
      simp at hsucc
  rw [evaluateWith_eq_of_ok_ok api q doc h hr hb]
  show List.Forall₂ (ResolutionProp (includedLookup doc)) doc.data
      (buildEntities api.new (includedLookup doc) doc.data).1
  rw [hnew] at hb ⊢
  have hall := buildEntities_resolution (includedLookup doc) doc.data hb hnd
  refine List.Forall₂.imp ?_ hall
  intro it ent hchar nm ptr hg
  constructor
  · intro inc hinc
    have hc := hchar nm
    simp only [hg, hinc] at hc
    exact hc
  · intro hnone
    have hc := hchar nm
    simp only [hg, hnone] at hc
    exact hc

/-- The included record of the witness document. -/
def r2 : Item := ⟨"users", "u1", [("name", "Ada")], []⟩

/-- The primary record of the witness document: one relationship resolvable
from `included`, one whose target is absent. -/
def r1 : Item :=
  ⟨"projects", "p1", [],
   [("owner", RelEntry.data (some ⟨"users", "u1"⟩)),
    ("parent", RelEntry.data (some ⟨"projects", "p0"⟩))]⟩

def resDoc : Document := ⟨[r1], [r2], ⟨none, none⟩⟩

def resApi : API := ⟨fun _ _ => Except.ok resDoc, defaultNew⟩

def resQ : Queryset := ⟨"/projects", [], none, none, none⟩

theorem relationship_resolution_witness :
    List.Forall₂ (ResolutionProp (includedLookup resDoc)) resDoc.data
      ((evaluateWith resApi resQ).1.data.getD []) :=
  relationship_resolution resApi resQ resDoc rfl rfl rfl
    (by
      intro it hit
      rw [show resDoc.data = [r1] from rfl, List.mem_singleton] at hit
      subst hit
      decide)
    rfl

/-! ## C7: all_pages / all over a finite cursor chain -/

/-- Evaluation triggered on an already-evaluated instance returns it
unchanged. -/
theorem advanceE_done (api : API) (q : Queryset) (h : q.data.isSome = true) :
    advanceE api q = Except.ok q := by
  unfold advanceE
  rw [evaluateWith_done api q h]

/-- The unfolding of one `while page.has_next()` iteration. -/
theorem pagesLoopE_succ (api : API) (f : Nat) (page : Queryset) :
    pagesLoopE api (f + 1) page
      = if hasNextB page then
          match nextOp api page with
          | Except.error e => Except.error e
          | Except.ok pr =>
            match advanceE api pr.1 with
            | Except.error e => Except.error e
            | Except.ok npe =>
              match pagesLoopE api f npe with
              | Except.error e => Except.error e
              | Except.ok rest => Except.ok (npe :: rest)
        else Except.ok [] := rfl

/-- `ChainFrom api page pages`: starting from the evaluated `page`, the
`links.next` cursors reach exactly the evaluated pages `pages` in order and
then stop (the last page has no truthy next cursor). -/
def ChainFrom (api : API) : Queryset → List Queryset → Prop
  | page, [] => hasNextB page = false
  | page, np :: rest =>
      ∃ u, page.next_url = some u ∧ urlTruthy u = true ∧
        advanceE api (initQS u page.params).1 = Except.ok np ∧
        np.data.isSome = true ∧ ChainFrom api np rest

theorem pagesLoop_chain (api : API) (pages : List Queryset) :
    ∀ (page : Queryset) (fuel : Nat), page.data.isSome = true →
      ChainFrom api page pages → pages.length ≤ fuel →
      pagesLoopE api fuel page = Except.ok pages := by
  induction pages with
  | nil =>
    intro page fuel hp hc hf
    cases fuel with
    | zero => rfl
    | succ f =>
      rw [pagesLoopE_succ]
      simp [show hasNextB page = false from hc]
  | cons np rest ih =>
    intro page fuel hp hc hf
    obtain ⟨u, hnu, htr, hadv, hnp, hrest⟩ := hc
    cases fuel with
    | zero => exact absurd hf (by simp)
    | succ f =>
      have hhn : hasNextB page = true := by
        unfold hasNextB
        rw [hnu]
        exact htr
      have hnext : nextOp api page
          = Except.ok ((initQS u page.params).1,
              { page with params := (initQS u page.params).2 }) := by
        unfold nextOp
        rw [advanceE_done api page hp]
        simp [hnu]
      rw [pagesLoopE_succ]
      simp only [hhn, if_true, hnext, hadv,
        ih np f hnp hrest (Nat.le_of_succ_le_succ hf)]

/-- **C7**: over a finite chain of pages linked by next cursors, `all_pages`
yields the receiver first exactly when its evaluated data is non-empty, then
every following page obtained via `next()` in cursor order until `has_next`
is false — and `all` yields every entity of every such page in page order
with within-page order preserved. -/
theorem all_pages_chain (api : API) (q qe : Queryset) (l : List Entity)
    (pages : List Queryset) (fuel : Nat)
    (hadv : advanceE api q = Except.ok qe)
    (hl : qe.data = some l)
    (hc : ChainFrom api qe pages)
    (hf : pages.length ≤ fuel) :
    allPagesE api fuel q
      = Except.ok ((if l.isEmpty then [] else [qe]) ++ pages)
    ∧ allE api fuel q
      = Except.ok (((if l.isEmpty then [] else [qe]) ++ pages).map
          (fun p => p.data.getD [])).flatten := by
  have hqe : qe.data.isSome = true := by rw [hl]; rfl
  have hloop := pagesLoop_chain api pages qe fuel hqe hc hf
  have h1 : allPagesE api fuel q
      = Except.ok ((if l.isEmpty then [] else [qe]) ++ pages) := by
    unfold allPagesE
    simp only [hadv, hloop]
    rw [hl]
    simp
  refine ⟨h1, ?_⟩
  unfold allE
  rw [h1]

/-- A transport serving three pages chained `/p1 → /p2 → /p3`, one entity
each. -/
def chApi : API :=
  ⟨fun url _ =>
    if url = "/p1" then
      Except.ok ⟨[⟨"i", "1", [], []⟩], [], ⟨some ⟨"/p2", []⟩, none⟩⟩
    else if url = "/p2" then
      Except.ok ⟨[⟨"i", "2", [], []⟩], [], ⟨some ⟨"/p3", []⟩, none⟩⟩
    else if url = "/p3" then
      Except.ok ⟨[⟨"i", "3", [], []⟩], [], ⟨none, none⟩⟩
    else Except.error (), defaultNew⟩

def chQ : Queryset := ⟨"/p1", [], none, none, none⟩

/-- The three evaluated pages of the chain. -/
def chP1 : Queryset := (evaluateWith chApi chQ).1

def chP2 : Queryset :=
  (evaluateWith chApi (initQS ⟨"/p2", []⟩ chP1.params).1).1

def chP3 : Queryset :=
  (evaluateWith chApi (initQS ⟨"/p3", []⟩ chP2.params).1).1

/-- The first page's data list. -/
def chL : List Entity := [Entity.mk ⟨"i", "1", []⟩ []]

theorem all_pages_chain_witness :
    allPagesE chApi 2 chQ = Except.ok ([chP1] ++ [chP2, chP3])
    ∧ allE chApi 2 chQ
        = Except.ok (([chP1] ++ [chP2, chP3]).map
            (fun p => p.data.getD [])).flatten :=
  all_pages_chain chApi chQ chP1 chL [chP2, chP3] 2 rfl rfl
    ⟨⟨"/p2", []⟩, rfl, rfl, rfl, rfl,
     ⟨⟨"/p3", []⟩, rfl, rfl, rfl, rfl, rfl⟩⟩
    (by decide)

end TxJsonApi
